import Mathlib

/-!
Shallow embedding of the triangle-intersection program (src/main.rs).

The program computes with `f64`. Here an `f64` value is modelled by `FP`:
a finite value is carried as an exact rational (arithmetic is taken exact,
with no rounding — every concrete input evaluated in this file is small
enough that the `f64` computation is itself exact in every operation whose
sign matters, and the final division by 6.0 only scales by a positive
constant), while the IEEE-754 special values that the program's sign logic
can observe — the two signed zeros, the two infinities and NaN — are kept
explicit, with the IEEE rules for how addition, subtraction, multiplication,
division by a positive constant, `f64::signum` and `==`/`!=` treat them.
This is what decides the boundary behaviour of the code: Rust's
`f64::signum` sends `+0.0` to `1.0` and `-0.0` to `-1.0` (there is no zero
category), and `==` on NaN is always false.
-/

namespace TriangleIntersect

/-- An `f64` value: NaN, the two infinities, the two signed zeros, or a
finite nonzero value carried as an exact rational. -/
inductive FP where
  | nan : FP
  | inf : FP
  | ninf : FP
  | zero : Bool → FP
  | nz : ℚ → FP
deriving DecidableEq

/-- The finite values: the two zeros and the nonzero rationals. -/
def FP.isFin : FP → Bool
  | .zero _ => true
  | .nz _ => true
  | _ => false

/-- The rational carried by a finite value (0 for both zeros); 0 on the
non-finite values, which is never used. -/
def FP.toRat : FP → ℚ
  | .nz q => q
  | _ => 0

/-- Negation: flips the sign bit, also on the zeros (IEEE `-0.0`). -/
def FP.neg : FP → FP
  | .nan => .nan
  | .inf => .ninf
  | .ninf => .inf
  | .zero s => .zero (!s)
  | .nz q => .nz (-q)

/-- IEEE addition (round-to-nearest, taken exact on finite values): a zero
result of adding opposite nonzero values is `+0.0`; `-0.0` only results
from `-0.0 + -0.0`; `inf + -inf` is NaN. -/
def FP.add : FP → FP → FP
  | .nan, _ => .nan
  | _, .nan => .nan
  | .inf, .ninf => .nan
  | .ninf, .inf => .nan
  | .inf, _ => .inf
  | _, .inf => .inf
  | .ninf, _ => .ninf
  | _, .ninf => .ninf
  | .zero s, .zero t => .zero (s && t)
  | .zero _, .nz q => .nz q
  | .nz q, .zero _ => .nz q
  | .nz a, .nz b => if a + b = 0 then .zero false else .nz (a + b)

/-- IEEE subtraction, which agrees with adding the negation. -/
def FP.sub (x y : FP) : FP := x.add y.neg

/-- IEEE multiplication: the sign of a zero or infinite product is the xor
of the operand signs; `0 * inf` is NaN. -/
def FP.mul : FP → FP → FP
  | .nan, _ => .nan
  | _, .nan => .nan
  | .inf, .inf => .inf
  | .inf, .ninf => .ninf
  | .ninf, .inf => .ninf
  | .ninf, .ninf => .inf
  | .inf, .zero _ => .nan
  | .zero _, .inf => .nan
  | .ninf, .zero _ => .nan
  | .zero _, .ninf => .nan
  | .inf, .nz q => if q < 0 then .ninf else .inf
  | .nz q, .inf => if q < 0 then .ninf else .inf
  | .ninf, .nz q => if q < 0 then .inf else .ninf
  | .nz q, .ninf => if q < 0 then .inf else .ninf
  | .zero s, .zero t => .zero (s != t)
  | .zero s, .nz q => .zero (s != decide (q < 0))
  | .nz q, .zero t => .zero (decide (q < 0) != t)
  | .nz a, .nz b => .nz (a * b)

/-- Division by the positive constant `6.0`: preserves the sign, also of
zeros and infinities (exact on the rational part). -/
def FP.div6 : FP → FP
  | .nan => .nan
  | .inf => .inf
  | .ninf => .ninf
  | .zero s => .zero s
  | .nz q => .nz (q / 6)

/-- Rust `f64::signum`: `1.0` for positive values, `+0.0` and `inf`;
`-1.0` for negative values, `-0.0` and `-inf`; NaN for NaN.  In particular
an exact zero is NOT its own category: its classification follows the sign
of the zero. -/
def FP.signum : FP → FP
  | .nan => .nan
  | .inf => .nz 1
  | .ninf => .nz (-1)
  | .zero false => .nz 1
  | .zero true => .nz (-1)
  | .nz q => if q < 0 then .nz (-1) else .nz 1

/-- IEEE equality `==`: false whenever either side is NaN; the two zeros
compare equal; otherwise equality of values. -/
def FP.feq : FP → FP → Bool
  | .nan, _ => false
  | _, .nan => false
  | .inf, .inf => true
  | .ninf, .ninf => true
  | .inf, _ => false
  | _, .inf => false
  | .ninf, _ => false
  | _, .ninf => false
  | x, y => decide (x.toRat = y.toRat)

/-- IEEE `!=`, the negation of `==` (so true on NaN comparisons). -/
def FP.fne (x y : FP) : Bool := !(x.feq y)

/-- The program's `Vertex` struct: three `f64` coordinates. -/
structure Vertex where
  x : FP
  y : FP
  z : FP
deriving DecidableEq

/-- `Vertex::subtract`: component-wise difference. -/
def Vertex.subtract (a v : Vertex) : Vertex :=
  ⟨a.x.sub v.x, a.y.sub v.y, a.z.sub v.z⟩

/-- `Vertex::cross_product`: the right-handed 3D cross product, with the
components written exactly as in the source. -/
def Vertex.cross_product (a v : Vertex) : Vertex :=
  ⟨(a.y.mul v.z).sub (a.z.mul v.y),
   ((a.x.mul v.z).sub (a.z.mul v.x)).neg,
   (a.x.mul v.y).sub (a.y.mul v.x)⟩

/-- `Vertex::dot_product`: sum of the component products, associated to the
left as Rust evaluates `a + b + c`. -/
def Vertex.dot_product (a v : Vertex) : FP :=
  ((a.x.mul v.x).add (a.y.mul v.y)).add (a.z.mul v.z)

/-- The program's `Edge` struct: an ordered pair of vertices
(`vertices[0]` and `vertices[1]` in the source). -/
structure Edge where
  p0 : Vertex
  p1 : Vertex
deriving DecidableEq

/-- `Edge::new`. -/
def Edge.new (u v : Vertex) : Edge := ⟨u, v⟩

/-- The program's `Triangle` struct: three vertices and three stored edges. -/
structure Triangle where
  v0 : Vertex
  v1 : Vertex
  v2 : Vertex
  e0 : Edge
  e1 : Edge
  e2 : Edge
deriving DecidableEq

/-- `Triangle::new`: derives the edges `(u,v)`, `(v,w)`, `(w,u)` from the
vertices in cyclic order. -/
def Triangle.new (u v w : Vertex) : Triangle :=
  ⟨u, v, w, Edge.new u v, Edge.new v w, Edge.new w u⟩

/-- `tetrahedran_signed_volume`: the dot of the cross of the differences,
divided by `6.0`, exactly as in the source. -/
def tetrahedran_signed_volume (a b c d : Vertex) : FP :=
  (((a.subtract d).cross_product (b.subtract d)).dot_product
    (c.subtract d)).div6

/-- `Triangle::edge_intersect`: the two plane-side signed volumes must have
unequal `signum` and the three edge-edge signed volumes must have pairwise
equal `signum`, all compared with `f64` `==`/`!=`. -/
def Triangle.edge_intersect (self : Triangle) (e : Edge) : Bool :=
  let sv_e_0 := tetrahedran_signed_volume self.v0 self.v1 self.v2 e.p0
  let sv_e_1 := tetrahedran_signed_volume self.v0 self.v1 self.v2 e.p1
  let sv_t_0 := tetrahedran_signed_volume self.e0.p0 self.e0.p1 e.p0 e.p1
  let sv_t_1 := tetrahedran_signed_volume self.e1.p0 self.e1.p1 e.p0 e.p1
  let sv_t_2 := tetrahedran_signed_volume self.e2.p0 self.e2.p1 e.p0 e.p1
  sv_e_0.signum.fne sv_e_1.signum && sv_t_0.signum.feq sv_t_1.signum &&
    sv_t_1.signum.feq sv_t_2.signum && sv_t_2.signum.feq sv_t_0.signum

/-- `Triangle::intersect`: tests the other triangle's edges against `self`
first, then `self`'s edges against the other, returning at the first
crossing (Rust's early `return true`, modelled by short-circuit `||`). -/
def Triangle.intersect (self t : Triangle) : Bool :=
  self.edge_intersect t.e0 || self.edge_intersect t.e1 ||
    self.edge_intersect t.e2 || t.edge_intersect self.e0 ||
    t.edge_intersect self.e1 || t.edge_intersect self.e2

/-- The `f64` value a small rational literal of the program denotes:
`+0.0` for 0, otherwise the exact nonzero value. -/
def fpOf (q : ℚ) : FP := if q = 0 then .zero false else .nz q

/-- A vertex from three rational literals. -/
def vtx (a b c : ℚ) : Vertex := ⟨fpOf a, fpOf b, fpOf c⟩

/-! ### The finite fragment: correspondence with exact rational arithmetic -/

/-- `x` is a finite `f64` value carrying the rational `q` (either of the two
zeros when `q = 0`). -/
def FPm (x : FP) (q : ℚ) : Prop := x.isFin = true ∧ x.toRat = q

theorem FPm.of_neg {x : FP} {a : ℚ} (h : FPm x a) : FPm x.neg (-a) := by
  obtain ⟨hf, hv⟩ := h
  subst hv
  cases x <;> simp_all [FPm, FP.neg, FP.isFin, FP.toRat]

theorem FPm.of_add {x y : FP} {a b : ℚ} (hx : FPm x a) (hy : FPm y b) :
    FPm (x.add y) (a + b) := by
  obtain ⟨hxf, hxv⟩ := hx
  obtain ⟨hyf, hyv⟩ := hy
  subst hxv
  subst hyv
  cases x with
  | nan => simp [FP.isFin] at hxf
  | inf => simp [FP.isFin] at hxf
  | ninf => simp [FP.isFin] at hxf
  | zero s =>
    cases y with
    | nan => simp [FP.isFin] at hyf
    | inf => simp [FP.isFin] at hyf
    | ninf => simp [FP.isFin] at hyf
    | zero t => exact ⟨rfl, by simp [FP.add, FP.toRat]⟩
    | nz q => exact ⟨rfl, by simp [FP.add, FP.toRat]⟩
  | nz p =>
    cases y with
    | nan => simp [FP.isFin] at hyf
    | inf => simp [FP.isFin] at hyf
    | ninf => simp [FP.isFin] at hyf
    | zero t => exact ⟨rfl, by simp [FP.add, FP.toRat]⟩
    | nz q =>
      by_cases h : p + q = 0
      · refine ⟨?_, ?_⟩ <;> simp [FP.add, h, FP.isFin, FP.toRat]
      · refine ⟨?_, ?_⟩ <;> simp [FP.add, h, FP.isFin, FP.toRat]

theorem FPm.of_sub {x y : FP} {a b : ℚ} (hx : FPm x a) (hy : FPm y b) :
    FPm (x.sub y) (a - b) := by
  have h := hx.of_add hy.of_neg
  rwa [sub_eq_add_neg]

theorem FPm.of_mul {x y : FP} {a b : ℚ} (hx : FPm x a) (hy : FPm y b) :
    FPm (x.mul y) (a * b) := by
  obtain ⟨hxf, hxv⟩ := hx
  obtain ⟨hyf, hyv⟩ := hy
  subst hxv
  subst hyv
  cases x <;> cases y <;> simp_all [FPm, FP.mul, FP.isFin, FP.toRat]

theorem FPm.of_div6 {x : FP} {a : ℚ} (hx : FPm x a) : FPm x.div6 (a / 6) := by
  obtain ⟨hxf, hxv⟩ := hx
  subst hxv
  cases x <;> simp_all [FPm, FP.div6, FP.isFin, FP.toRat]

/-- All three coordinates of a vertex are finite. -/
def Vertex.finite (v : Vertex) : Prop :=
  v.x.isFin = true ∧ v.y.isFin = true ∧ v.z.isFin = true

instance (v : Vertex) : Decidable v.finite := by
  unfold Vertex.finite
  infer_instance

/-- The exact rational value of the signed tetrahedron volume, with the
operations in the very shape the source computes them. -/
def svQ (a b c d : Vertex) : ℚ :=
  (((a.y.toRat - d.y.toRat) * (b.z.toRat - d.z.toRat) -
      (a.z.toRat - d.z.toRat) * (b.y.toRat - d.y.toRat)) *
      (c.x.toRat - d.x.toRat) +
    (-((a.x.toRat - d.x.toRat) * (b.z.toRat - d.z.toRat) -
      (a.z.toRat - d.z.toRat) * (b.x.toRat - d.x.toRat))) *
      (c.y.toRat - d.y.toRat) +
    ((a.x.toRat - d.x.toRat) * (b.y.toRat - d.y.toRat) -
      (a.y.toRat - d.y.toRat) * (b.x.toRat - d.x.toRat)) *
      (c.z.toRat - d.z.toRat)) / 6

/-- On finite vertices the signed-volume function computes exactly the
rational `svQ` (up to the sign of a zero, which `FPm` does not fix). -/
theorem tetra_FPm (a b c d : Vertex) (ha : a.finite) (hb : b.finite)
    (hc : c.finite) (hd : d.finite) :
    FPm (tetrahedran_signed_volume a b c d) (svQ a b c d) := by
  obtain ⟨hax, hay, haz⟩ := ha
  obtain ⟨hbx, hby, hbz⟩ := hb
  obtain ⟨hcx, hcy, hcz⟩ := hc
  obtain ⟨hdx, hdy, hdz⟩ := hd
  exact FPm.of_div6 (FPm.of_add
    (FPm.of_add
      (FPm.of_mul
        (FPm.of_sub (FPm.of_mul (FPm.of_sub ⟨hay, rfl⟩ ⟨hdy, rfl⟩)
            (FPm.of_sub ⟨hbz, rfl⟩ ⟨hdz, rfl⟩))
          (FPm.of_mul (FPm.of_sub ⟨haz, rfl⟩ ⟨hdz, rfl⟩)
            (FPm.of_sub ⟨hby, rfl⟩ ⟨hdy, rfl⟩)))
        (FPm.of_sub ⟨hcx, rfl⟩ ⟨hdx, rfl⟩))
      (FPm.of_mul
        (FPm.of_neg
          (FPm.of_sub (FPm.of_mul (FPm.of_sub ⟨hax, rfl⟩ ⟨hdx, rfl⟩)
              (FPm.of_sub ⟨hbz, rfl⟩ ⟨hdz, rfl⟩))
            (FPm.of_mul (FPm.of_sub ⟨haz, rfl⟩ ⟨hdz, rfl⟩)
              (FPm.of_sub ⟨hbx, rfl⟩ ⟨hdx, rfl⟩))))
        (FPm.of_sub ⟨hcy, rfl⟩ ⟨hdy, rfl⟩)))
    (FPm.of_mul
      (FPm.of_sub (FPm.of_mul (FPm.of_sub ⟨hax, rfl⟩ ⟨hdx, rfl⟩)
          (FPm.of_sub ⟨hby, rfl⟩ ⟨hdy, rfl⟩))
        (FPm.of_mul (FPm.of_sub ⟨hay, rfl⟩ ⟨hdy, rfl⟩)
          (FPm.of_sub ⟨hbx, rfl⟩ ⟨hdx, rfl⟩)))
      (FPm.of_sub ⟨hcz, rfl⟩ ⟨hdz, rfl⟩)))

theorem signum_of_pos {x : FP} {q : ℚ} (h : FPm x q) (hq : 0 < q) :
    x.signum = .nz 1 := by
  obtain ⟨hf, hv⟩ := h
  subst hv
  cases x with
  | nan => simp [FP.isFin] at hf
  | inf => simp [FP.isFin] at hf
  | ninf => simp [FP.isFin] at hf
  | zero s => simp [FP.toRat] at hq
  | nz q =>
    simp only [FP.toRat] at hq
    simp [FP.signum, not_lt.mpr hq.le]

theorem signum_of_neg {x : FP} {q : ℚ} (h : FPm x q) (hq : q < 0) :
    x.signum = .nz (-1) := by
  obtain ⟨hf, hv⟩ := h
  subst hv
  cases x with
  | nan => simp [FP.isFin] at hf
  | inf => simp [FP.isFin] at hf
  | ninf => simp [FP.isFin] at hf
  | zero s => simp [FP.toRat] at hq
  | nz q =>
    simp only [FP.toRat] at hq
    simp [FP.signum, hq]

/-- For two nonzero finite values the code's `signum != signum` test holds
exactly when the carried rationals have strictly opposite signs, i.e. when
their product is negative. -/
theorem fne_signum_iff {x y : FP} {a b : ℚ} (hx : FPm x a) (hy : FPm y b)
    (ha : a ≠ 0) (hb : b ≠ 0) :
    (x.signum.fne y.signum = true) ↔ a * b < 0 := by
  rcases ha.lt_or_lt with h1 | h1 <;> rcases hb.lt_or_lt with h2 | h2
  · rw [signum_of_neg hx h1, signum_of_neg hy h2]
    constructor
    · intro h
      exact absurd h (by decide)
    · intro h
      exact absurd h (not_lt.mpr (mul_pos_of_neg_of_neg h1 h2).le)
  · rw [signum_of_neg hx h1, signum_of_pos hy h2]
    constructor
    · intro _
      exact mul_neg_of_neg_of_pos h1 h2
    · intro _
      decide
  · rw [signum_of_pos hx h1, signum_of_neg hy h2]
    constructor
    · intro _
      exact mul_neg_of_pos_of_neg h1 h2
    · intro _
      decide
  · rw [signum_of_pos hx h1, signum_of_pos hy h2]
    constructor
    · intro h
      exact absurd h (by decide)
    · intro h
      exact absurd h (not_lt.mpr (mul_pos h1 h2).le)

/-- For two nonzero finite values the code's `signum == signum` test holds
exactly when the carried rationals have strictly equal signs, i.e. when
their product is positive. -/
theorem feq_signum_iff {x y : FP} {a b : ℚ} (hx : FPm x a) (hy : FPm y b)
    (ha : a ≠ 0) (hb : b ≠ 0) :
    (x.signum.feq y.signum = true) ↔ 0 < a * b := by
  rcases ha.lt_or_lt with h1 | h1 <;> rcases hb.lt_or_lt with h2 | h2
  · rw [signum_of_neg hx h1, signum_of_neg hy h2]
    constructor
    · intro _
      exact mul_pos_of_neg_of_neg h1 h2
    · intro _
      decide
  · rw [signum_of_neg hx h1, signum_of_pos hy h2]
    constructor
    · intro h
      exact absurd h (by decide)
    · intro h
      exact absurd h (not_lt.mpr (mul_neg_of_neg_of_pos h1 h2).le)
  · rw [signum_of_pos hx h1, signum_of_neg hy h2]
    constructor
    · intro h
      exact absurd h (by decide)
    · intro h
      exact absurd h (not_lt.mpr (mul_neg_of_pos_of_neg h1 h2).le)
  · rw [signum_of_pos hx h1, signum_of_pos hy h2]
    constructor
    · intro _
      exact mul_pos h1 h2
    · intro _
      decide

/-! ### Permutation identities of the exact signed volume -/

theorem svQ_swap12 (a b c d : Vertex) : svQ b a c d = -svQ a b c d := by
  unfold svQ
  ring

theorem svQ_swap23 (a b c d : Vertex) : svQ a c b d = -svQ a b c d := by
  unfold svQ
  ring

theorem svQ_swap13 (a b c d : Vertex) : svQ c b a d = -svQ a b c d := by
  unfold svQ
  ring

theorem svQ_rot (a b c d : Vertex) : svQ b c a d = svQ a b c d := by
  unfold svQ
  ring

theorem svQ_rot2 (a b c d : Vertex) : svQ c a b d = svQ a b c d := by
  unfold svQ
  ring

theorem svQ_swap34 (a b c d : Vertex) : svQ a b d c = -svQ a b c d := by
  unfold svQ
  ring

theorem svQ_pairswap (a b c d : Vertex) : svQ c d a b = svQ a b c d := by
  unfold svQ
  ring

/-! ### Sign-level characterization of the edge test, away from zeros -/

/-- The exact-arithmetic crossing condition the code's edge test computes
when no signed volume vanishes: the edge endpoints on strictly opposite
sides of the triangle's plane and the three edge-edge volumes of strictly
equal sign (stated through sign products). -/
def EdgeCrossQ (u v w p q : Vertex) : Prop :=
  svQ u v w p * svQ u v w q < 0 ∧ 0 < svQ u v p q * svQ v w p q ∧
    0 < svQ v w p q * svQ w u p q ∧ 0 < svQ w u p q * svQ u v p q

theorem edge_intersect_iff (u v w p q : Vertex)
    (hu : u.finite) (hv : v.finite) (hw : w.finite)
    (hp : p.finite) (hq : q.finite)
    (h1 : svQ u v w p ≠ 0) (h2 : svQ u v w q ≠ 0) (h3 : svQ u v p q ≠ 0)
    (h4 : svQ v w p q ≠ 0) (h5 : svQ w u p q ≠ 0) :
    ((Triangle.new u v w).edge_intersect (Edge.new p q) = true ↔
      EdgeCrossQ u v w p q) := by
  have m1 := tetra_FPm u v w p hu hv hw hp
  have m2 := tetra_FPm u v w q hu hv hw hq
  have m3 := tetra_FPm u v p q hu hv hp hq
  have m4 := tetra_FPm v w p q hv hw hp hq
  have m5 := tetra_FPm w u p q hw hu hp hq
  show ((tetrahedran_signed_volume u v w p).signum.fne
        (tetrahedran_signed_volume u v w q).signum &&
      (tetrahedran_signed_volume u v p q).signum.feq
        (tetrahedran_signed_volume v w p q).signum &&
      (tetrahedran_signed_volume v w p q).signum.feq
        (tetrahedran_signed_volume w u p q).signum &&
      (tetrahedran_signed_volume w u p q).signum.feq
        (tetrahedran_signed_volume u v p q).signum) = true ↔
    EdgeCrossQ u v w p q
  rw [Bool.and_eq_true, Bool.and_eq_true, Bool.and_eq_true]
  rw [fne_signum_iff m1 m2 h1 h2, feq_signum_iff m3 m4 h3 h4,
    feq_signum_iff m4 m5 h4 h5, feq_signum_iff m5 m3 h5 h3]
  unfold EdgeCrossQ
  tauto

theorem Triangle.new_e0 (u v w : Vertex) :
    (Triangle.new u v w).e0 = Edge.new u v := rfl

theorem Triangle.new_e1 (u v w : Vertex) :
    (Triangle.new u v w).e1 = Edge.new v w := rfl

theorem Triangle.new_e2 (u v w : Vertex) :
    (Triangle.new u v w).e2 = Edge.new w u := rfl

/-- The exact-arithmetic disjunction the triangle-triangle test computes
away from zeros: one of the six candidate edges crosses. -/
def IntersectQ (u v w p q r : Vertex) : Prop :=
  EdgeCrossQ u v w p q ∨ EdgeCrossQ u v w q r ∨ EdgeCrossQ u v w r p ∨
    EdgeCrossQ p q r u v ∨ EdgeCrossQ p q r v w ∨ EdgeCrossQ p q r w u

theorem intersect_iff (u v w p q r : Vertex)
    (hu : u.finite) (hv : v.finite) (hw : w.finite)
    (hp : p.finite) (hq : q.finite) (hr : r.finite)
    (n1 : svQ u v w p ≠ 0) (n2 : svQ u v w q ≠ 0) (n3 : svQ u v w r ≠ 0)
    (n4 : svQ p q r u ≠ 0) (n5 : svQ p q r v ≠ 0) (n6 : svQ p q r w ≠ 0)
    (n7 : svQ u v p q ≠ 0) (n8 : svQ v w p q ≠ 0) (n9 : svQ w u p q ≠ 0)
    (n10 : svQ u v q r ≠ 0) (n11 : svQ v w q r ≠ 0) (n12 : svQ w u q r ≠ 0)
    (n13 : svQ u v r p ≠ 0) (n14 : svQ v w r p ≠ 0) (n15 : svQ w u r p ≠ 0) :
    ((Triangle.new u v w).intersect (Triangle.new p q r) = true ↔
      IntersectQ u v w p q r) := by
  have e1 := edge_intersect_iff u v w p q hu hv hw hp hq n1 n2 n7 n8 n9
  have e2 := edge_intersect_iff u v w q r hu hv hw hq hr n2 n3 n10 n11 n12
  have e3 := edge_intersect_iff u v w r p hu hv hw hr hp n3 n1 n13 n14 n15
  have e4 := edge_intersect_iff p q r u v hp hq hr hu hv n4 n5
    (by rw [svQ_pairswap]; exact n7) (by rw [svQ_pairswap]; exact n10)
    (by rw [svQ_pairswap]; exact n13)
  have e5 := edge_intersect_iff p q r v w hp hq hr hv hw n5 n6
    (by rw [svQ_pairswap]; exact n8) (by rw [svQ_pairswap]; exact n11)
    (by rw [svQ_pairswap]; exact n14)
  have e6 := edge_intersect_iff p q r w u hp hq hr hw hu n6 n4
    (by rw [svQ_pairswap]; exact n9) (by rw [svQ_pairswap]; exact n12)
    (by rw [svQ_pairswap]; exact n15)
  simp only [Triangle.intersect, Triangle.new_e0, Triangle.new_e1,
    Triangle.new_e2, Bool.or_eq_true]
  rw [e1, e2, e3, e4, e5, e6]
  unfold IntersectQ
  simp only [or_assoc]

/-! ### Invariance of the exact crossing condition under relabelings -/

theorem ECQ_pts_swap (t1 t2 t3 a b : Vertex) :
    EdgeCrossQ t1 t2 t3 b a ↔ EdgeCrossQ t1 t2 t3 a b := by
  unfold EdgeCrossQ
  rw [svQ_swap34 t1 t2 a b, svQ_swap34 t2 t3 a b, svQ_swap34 t3 t1 a b]
  ring_nf
  try tauto

theorem ECQ_tri_swap12 (u v w a b : Vertex) :
    EdgeCrossQ v u w a b ↔ EdgeCrossQ u v w a b := by
  unfold EdgeCrossQ
  rw [svQ_swap12 u v w a, svQ_swap12 u v w b, svQ_swap12 u v a b,
    svQ_swap12 w u a b, svQ_swap12 v w a b]
  ring_nf
  try tauto

theorem ECQ_tri_swap23 (u v w a b : Vertex) :
    EdgeCrossQ u w v a b ↔ EdgeCrossQ u v w a b := by
  unfold EdgeCrossQ
  rw [svQ_swap23 u v w a, svQ_swap23 u v w b, svQ_swap12 u v a b,
    svQ_swap12 w u a b, svQ_swap12 v w a b]
  ring_nf
  try tauto

theorem ECQ_tri_swap13 (u v w a b : Vertex) :
    EdgeCrossQ w v u a b ↔ EdgeCrossQ u v w a b := by
  unfold EdgeCrossQ
  rw [svQ_swap13 u v w a, svQ_swap13 u v w b, svQ_swap12 u v a b,
    svQ_swap12 w u a b, svQ_swap12 v w a b]
  ring_nf
  try tauto

theorem ECQ_tri_rot (u v w a b : Vertex) :
    EdgeCrossQ v w u a b ↔ EdgeCrossQ u v w a b := by
  unfold EdgeCrossQ
  rw [svQ_rot u v w a, svQ_rot u v w b]
  tauto

theorem ECQ_tri_rot2 (u v w a b : Vertex) :
    EdgeCrossQ w u v a b ↔ EdgeCrossQ u v w a b := by
  unfold EdgeCrossQ
  rw [svQ_rot2 u v w a, svQ_rot2 u v w b]
  tauto

theorem IQ_swap12 (u v w p q r : Vertex) :
    IntersectQ v u w p q r ↔ IntersectQ u v w p q r := by
  unfold IntersectQ
  rw [ECQ_tri_swap12 u v w p q, ECQ_tri_swap12 u v w q r,
    ECQ_tri_swap12 u v w r p, ECQ_pts_swap p q r u v,
    ECQ_pts_swap p q r w u, ECQ_pts_swap p q r v w]
  tauto

theorem IQ_swap23 (u v w p q r : Vertex) :
    IntersectQ u w v p q r ↔ IntersectQ u v w p q r := by
  unfold IntersectQ
  rw [ECQ_tri_swap23 u v w p q, ECQ_tri_swap23 u v w q r,
    ECQ_tri_swap23 u v w r p, ECQ_pts_swap p q r u v,
    ECQ_pts_swap p q r w u, ECQ_pts_swap p q r v w]
  tauto

theorem IQ_swap13 (u v w p q r : Vertex) :
    IntersectQ w v u p q r ↔ IntersectQ u v w p q r := by
  unfold IntersectQ
  rw [ECQ_tri_swap13 u v w p q, ECQ_tri_swap13 u v w q r,
    ECQ_tri_swap13 u v w r p, ECQ_pts_swap p q r u v,
    ECQ_pts_swap p q r w u, ECQ_pts_swap p q r v w]
  tauto

theorem IQ_rot (u v w p q r : Vertex) :
    IntersectQ v w u p q r ↔ IntersectQ u v w p q r := by
  unfold IntersectQ
  rw [ECQ_tri_rot u v w p q, ECQ_tri_rot u v w q r, ECQ_tri_rot u v w r p]
  tauto

theorem IQ_rot2 (u v w p q r : Vertex) :
    IntersectQ w u v p q r ↔ IntersectQ u v w p q r := by
  unfold IntersectQ
  rw [ECQ_tri_rot2 u v w p q, ECQ_tri_rot2 u v w q r,
    ECQ_tri_rot2 u v w r p]
  tauto

theorem bool_eq_of_iff {b c : Bool} (h : b = true ↔ c = true) : b = c := by
  cases b <;> cases c <;> simp_all

theorem FP.feq_nan_left (x : FP) : FP.feq .nan x = false := by
  cases x <;> rfl

theorem FP.feq_nan_right (x : FP) : FP.feq x .nan = false := by
  cases x <;> rfl

/-! ### Points and closed triangles over ℚ, for geometric side conditions -/

/-- A point of ℚ³ (used only to state geometric disjointness). -/
structure P3 where
  x : ℚ
  y : ℚ
  z : ℚ
deriving DecidableEq

/-- Membership of `pt` in the closed triangle with vertices `a`, `b`, `c`:
a convex combination with nonnegative weights summing to 1. -/
def memTri (pt a b c : P3) : Prop :=
  ∃ l m n : ℚ, 0 ≤ l ∧ 0 ≤ m ∧ 0 ≤ n ∧ l + m + n = 1 ∧
    pt.x = l * a.x + m * b.x + n * c.x ∧
    pt.y = l * a.y + m * b.y + n * c.y ∧
    pt.z = l * a.z + m * b.z + n * c.z

/-- The rational point a finite vertex denotes. -/
def Vertex.toP3 (v : Vertex) : P3 := ⟨v.x.toRat, v.y.toRat, v.z.toRat⟩

/-! ### Spec-side formulas (for the refinement comparison of claim C4) -/

/-- Stated from the spec (4.1): `subtract(a, b)` is the component-wise
difference. -/
def subtract_spec (a b : Vertex) : Vertex :=
  ⟨a.x.sub b.x, a.y.sub b.y, a.z.sub b.z⟩

/-- Stated from the spec (4.1): the right-handed cross product with
`result.x = a.y·b.z − a.z·b.y`, `result.y = −(a.x·b.z − a.z·b.x)`,
`result.z = a.x·b.y − a.y·b.x`. -/
def cross_spec (a b : Vertex) : Vertex :=
  ⟨(a.y.mul b.z).sub (a.z.mul b.y),
   ((a.x.mul b.z).sub (a.z.mul b.x)).neg,
   (a.x.mul b.y).sub (a.y.mul b.x)⟩

/-- Stated from the spec (4.1): the component-wise product sum. -/
def dot_spec (a b : Vertex) : FP :=
  ((a.x.mul b.x).add (a.y.mul b.y)).add (a.z.mul b.z)

/-- The constant 1/6 (exact in this model). -/
def oneSixth : FP := .nz (1 / 6)

/-- Stated from the spec (4.2):
`signedVolume(a,b,c,d) = (1/6)·((a−d)×(b−d))·(c−d)`. -/
def signedVolume_spec (a b c d : Vertex) : FP :=
  oneSixth.mul (dot_spec (cross_spec (subtract_spec a d) (subtract_spec b d))
    (subtract_spec c d))

theorem oneSixth_mul (x : FP) : oneSixth.mul x = x.div6 := by
  have h6 : ¬((1 / 6 : ℚ) < 0) := by norm_num
  cases x with
  | nan => rfl
  | inf =>
    show (if (1 / 6 : ℚ) < 0 then FP.ninf else FP.inf) = FP.inf
    rw [if_neg h6]
  | ninf =>
    show (if (1 / 6 : ℚ) < 0 then FP.inf else FP.ninf) = FP.ninf
    rw [if_neg h6]
  | zero t =>
    show FP.zero (decide ((1 / 6 : ℚ) < 0) != t) = FP.zero t
    rw [decide_eq_false h6]
    cases t <;> rfl
  | nz q =>
    show FP.nz ((1 / 6 : ℚ) * q) = FP.nz (q / 6)
    congr 1
    ring

/-! ### Constructor-level evaluation lemmas for concrete runs of the code -/

@[simp] theorem FP.add_nan_left (x : FP) : FP.add .nan x = .nan := by
  cases x <;> rfl

@[simp] theorem FP.add_nan_right (x : FP) : FP.add x .nan = .nan := by
  cases x <;> rfl

@[simp] theorem FP.add_zero_zero (s t : Bool) :
    FP.add (.zero s) (.zero t) = .zero (s && t) := rfl

@[simp] theorem FP.add_zero_nz (s : Bool) (q : ℚ) :
    FP.add (.zero s) (.nz q) = .nz q := rfl

@[simp] theorem FP.add_nz_zero (q : ℚ) (s : Bool) :
    FP.add (.nz q) (.zero s) = .nz q := rfl

@[simp] theorem FP.add_nz_nz (a b : ℚ) :
    FP.add (.nz a) (.nz b) =
      if a + b = 0 then .zero false else .nz (a + b) := rfl

@[simp] theorem FP.neg_nan : FP.neg .nan = .nan := rfl

@[simp] theorem FP.neg_zero_any (s : Bool) : FP.neg (.zero s) = .zero (!s) := rfl

@[simp] theorem FP.neg_nz (q : ℚ) : FP.neg (.nz q) = .nz (-q) := rfl

@[simp] theorem FP.mul_nan_left (x : FP) : FP.mul .nan x = .nan := by
  cases x <;> rfl

@[simp] theorem FP.mul_nan_right (x : FP) : FP.mul x .nan = .nan := by
  cases x <;> rfl

@[simp] theorem FP.mul_zero_zero (s t : Bool) :
    FP.mul (.zero s) (.zero t) = .zero (s != t) := rfl

@[simp] theorem FP.mul_zero_nz (s : Bool) (q : ℚ) :
    FP.mul (.zero s) (.nz q) =
      if q < 0 then .zero (!s) else .zero s := by
  by_cases h : q < 0
  · show FP.zero (s != decide (q < 0)) = _
    rw [decide_eq_true h, if_pos h]
    cases s <;> rfl
  · show FP.zero (s != decide (q < 0)) = _
    rw [decide_eq_false h, if_neg h]
    cases s <;> rfl

@[simp] theorem FP.mul_nz_zero (q : ℚ) (t : Bool) :
    FP.mul (.nz q) (.zero t) =
      if q < 0 then .zero (!t) else .zero t := by
  by_cases h : q < 0
  · show FP.zero (decide (q < 0) != t) = _
    rw [decide_eq_true h, if_pos h]
    cases t <;> rfl
  · show FP.zero (decide (q < 0) != t) = _
    rw [decide_eq_false h, if_neg h]
    cases t <;> rfl

@[simp] theorem FP.mul_nz_nz (a b : ℚ) :
    FP.mul (.nz a) (.nz b) = .nz (a * b) := rfl

@[simp] theorem FP.div6_nan : FP.div6 .nan = .nan := rfl

@[simp] theorem FP.div6_zero (s : Bool) : FP.div6 (.zero s) = .zero s := rfl

@[simp] theorem FP.div6_nz (q : ℚ) : FP.div6 (.nz q) = .nz (q / 6) := rfl

@[simp] theorem FP.signum_nan : FP.signum .nan = .nan := rfl

@[simp] theorem FP.signum_zero (s : Bool) :
    FP.signum (.zero s) = if s then .nz (-1) else .nz 1 := by
  cases s <;> rfl

@[simp] theorem FP.signum_nz (q : ℚ) :
    FP.signum (.nz q) = if q < 0 then .nz (-1) else .nz 1 := rfl

@[simp] theorem FP.feq_nz_nz (a b : ℚ) :
    FP.feq (.nz a) (.nz b) = if a = b then true else false := by
  by_cases h : a = b
  · show decide ((FP.nz a).toRat = (FP.nz b).toRat) = _
    rw [if_pos h]
    exact decide_eq_true h
  · show decide ((FP.nz a).toRat = (FP.nz b).toRat) = _
    rw [if_neg h]
    exact decide_eq_false h

@[simp] theorem FP.toRat_nz (q : ℚ) : FP.toRat (.nz q) = q := rfl

@[simp] theorem FP.toRat_zero (s : Bool) : FP.toRat (.zero s) = 0 := rfl

@[simp] theorem FP.isFin_nz (q : ℚ) : FP.isFin (.nz q) = true := rfl

@[simp] theorem FP.isFin_zero (s : Bool) : FP.isFin (.zero s) = true := rfl

/-! ### The claims -/

/-- Claim C1: `edge_intersect(T, E)` returns true iff the signums of the
two plane-side signed volumes `sv_e[i] = signedVolume(T.v0, T.v1, T.v2,
E.p_i)` differ (under `f64` `!=`) and the signums of the three edge-edge
signed volumes `sv_t[i] = signedVolume(T.edge[i].p0, T.edge[i].p1, E.p0,
E.p1)` are all equal (the code's three pairwise `f64` `==` comparisons). -/
theorem claim_C1_edge_intersect_characterization (T : Triangle) (E : Edge) :
    T.edge_intersect E = true ↔
      ((tetrahedran_signed_volume T.v0 T.v1 T.v2 E.p0).signum.fne
          (tetrahedran_signed_volume T.v0 T.v1 T.v2 E.p1).signum = true ∧
        (tetrahedran_signed_volume T.e0.p0 T.e0.p1 E.p0 E.p1).signum.feq
          (tetrahedran_signed_volume T.e1.p0 T.e1.p1 E.p0 E.p1).signum =
            true ∧
        (tetrahedran_signed_volume T.e1.p0 T.e1.p1 E.p0 E.p1).signum.feq
          (tetrahedran_signed_volume T.e2.p0 T.e2.p1 E.p0 E.p1).signum =
            true ∧
        (tetrahedran_signed_volume T.e2.p0 T.e2.p1 E.p0 E.p1).signum.feq
          (tetrahedran_signed_volume T.e0.p0 T.e0.p1 E.p0 E.p1).signum =
            true) := by
  simp only [Triangle.edge_intersect, Bool.and_eq_true, and_assoc]

/-- Claim C2: `intersect(T1, T2)` returns true iff one of T2's three edges
crosses T1 or one of T1's three edges crosses T2; the disjuncts are listed
in the code's evaluation order (T2's edges first, short-circuiting), and
the result is false only after all six candidate edges fail. -/
theorem claim_C2_intersect_disjunction (T1 T2 : Triangle) :
    T1.intersect T2 = true ↔
      (T1.edge_intersect T2.e0 = true ∨ T1.edge_intersect T2.e1 = true ∨
        T1.edge_intersect T2.e2 = true ∨ T2.edge_intersect T1.e0 = true ∨
        T2.edge_intersect T1.e1 = true ∨ T2.edge_intersect T1.e2 = true) := by
  simp only [Triangle.intersect, Bool.or_eq_true, or_assoc]

/-- Claim C3 counterexample: a configuration producing an exact zero signed
volume that IS classified as crossing.  The edge from (1,1,0) to (1,1,4)
has its first endpoint exactly in the plane of the triangle
((0,0,0),(4,0,0),(0,4,0)): `sv_e[0]` is exactly `+0.0`, whose `signum` is
`1.0` (not a third zero category), it differs from `signum(sv_e[1]) =
-1.0`, and `edge_intersect` returns true. -/
theorem claim_C3_counterexample :
    tetrahedran_signed_volume (vtx 0 0 0) (vtx 4 0 0) (vtx 0 4 0)
        (vtx 1 1 0) = FP.zero false ∧
      (Triangle.new (vtx 0 0 0) (vtx 4 0 0) (vtx 0 4 0)).edge_intersect
        (Edge.new (vtx 1 1 0) (vtx 1 1 4)) = true := by
  refine ⟨?_, ?_⟩ <;>
    norm_num [Triangle.edge_intersect, Triangle.new, Edge.new,
      tetrahedran_signed_volume, Vertex.subtract, Vertex.cross_product,
      Vertex.dot_product, FP.sub, FP.fne, vtx, fpOf]

/-- Claim C3 as amended: in `edge_intersect` the sign of a signed volume is
classified by `f64::signum` into only two categories, `-1.0` and `1.0`
(NaN aside); an exactly-zero signed volume is classified as positive or
negative according to the IEEE sign of the zero (`signum(+0.0) = 1.0`,
`signum(-0.0) = -1.0`), so a configuration producing an exact zero signed
volume can still be classified as crossing, as the concrete edge
(1,1,0)–(1,1,4) against the triangle ((0,0,0),(4,0,0),(0,4,0)) shows. -/
theorem claim_C3_amended_zero_has_a_sign :
    FP.signum (FP.zero false) = FP.nz 1 ∧
      FP.signum (FP.zero true) = FP.nz (-1) ∧
      tetrahedran_signed_volume (vtx 0 0 0) (vtx 4 0 0) (vtx 0 4 0)
        (vtx 1 1 0) = FP.zero false ∧
      (Triangle.new (vtx 0 0 0) (vtx 4 0 0) (vtx 0 4 0)).edge_intersect
        (Edge.new (vtx 1 1 0) (vtx 1 1 4)) = true := by
  refine ⟨rfl, rfl, ?_, ?_⟩ <;>
    norm_num [Triangle.edge_intersect, Triangle.new, Edge.new,
      tetrahedran_signed_volume, Vertex.subtract, Vertex.cross_product,
      Vertex.dot_product, FP.sub, FP.fne, vtx, fpOf]

/-- Claim C4: for all points a, b, c, d the code's signed-volume function
returns exactly (1/6)·(((a−d) × (b−d)) · (c−d)) with the spec's
component-wise subtraction, right-handed cross product and dot product
(in the exact-arithmetic model of `f64`). -/
theorem claim_C4_signed_volume_formula (a b c d : Vertex) :
    tetrahedran_signed_volume a b c d = signedVolume_spec a b c d := by
  rw [signedVolume_spec, oneSixth_mul]
  rfl

/-- Claim C5: `intersect` is symmetric, `intersect(A, B) = intersect(B, A)`
for all triangles, because both directions evaluate the same six edge
tests and combine them with `||`. -/
theorem claim_C5_symmetry (A B : Triangle) :
    A.intersect B = B.intersect A := by
  apply bool_eq_of_iff
  simp only [Triangle.intersect, Bool.or_eq_true, or_assoc]
  tauto

/-- Claim C8: for any 18 coordinate values, including NaN, infinities and
degenerate triangles, `intersect` is a total function into the booleans:
it terminates and returns either true or false (the embedding is a total
Lean function, and no case of the arithmetic or comparisons is missing). -/
theorem claim_C8_totality
    (x1 y1 z1 x2 y2 z2 x3 y3 z3 x4 y4 z4 x5 y5 z5 x6 y6 z6 : FP) :
    (Triangle.new ⟨x1, y1, z1⟩ ⟨x2, y2, z2⟩ ⟨x3, y3, z3⟩).intersect
        (Triangle.new ⟨x4, y4, z4⟩ ⟨x5, y5, z5⟩ ⟨x6, y6, z6⟩) = true ∨
      (Triangle.new ⟨x1, y1, z1⟩ ⟨x2, y2, z2⟩ ⟨x3, y3, z3⟩).intersect
        (Triangle.new ⟨x4, y4, z4⟩ ⟨x5, y5, z5⟩ ⟨x6, y6, z6⟩) = false :=
  Bool.eq_false_or_eq_true _

/-- Claim C9: the spec's clear-crossing example: T1 = (0,0,0),(2,0,0),
(0,2,0) and T2 = (1,-1,-1),(1,-1,1),(1,1,0) intersect. -/
theorem claim_C9_crossing_example :
    (Triangle.new (vtx 0 0 0) (vtx 2 0 0) (vtx 0 2 0)).intersect
      (Triangle.new (vtx 1 (-1) (-1)) (vtx 1 (-1) 1) (vtx 1 1 0)) = true := by
  norm_num [Triangle.intersect, Triangle.edge_intersect, Triangle.new,
    Edge.new, tetrahedran_signed_volume, Vertex.subtract,
    Vertex.cross_product, Vertex.dot_product, FP.sub, FP.fne, vtx, fpOf]

theorem FP.zero_ne_nz (s : Bool) (q : ℚ) : FP.zero s ≠ FP.nz q :=
  fun h => FP.noConfusion h

theorem FP.nz_ne_zero (q : ℚ) (s : Bool) : FP.nz q ≠ FP.zero s :=
  fun h => FP.noConfusion h

theorem toRat_fpOf (q : ℚ) : (fpOf q).toRat = q := by
  by_cases h : q = 0 <;> simp [fpOf, h]

theorem toP3_vtx (a b c : ℚ) : (vtx a b c).toP3 = ⟨a, b, c⟩ := by
  simp [Vertex.toP3, vtx, toRat_fpOf]

/-- Any point common to the triangle ((0,0,0),(4,0,0),(0,4,0)) (inside the
plane z = 0) and the triangle ((0,0,0),(10,10,4),(10,14,4)) (whose other
two vertices lie at height 4) is the shared vertex: these two triangles
are otherwise disjoint. -/
theorem shared_up_only_origin (pt : P3)
    (hA : memTri pt ⟨0, 0, 0⟩ ⟨4, 0, 0⟩ ⟨0, 4, 0⟩)
    (hB : memTri pt ⟨0, 0, 0⟩ ⟨10, 10, 4⟩ ⟨10, 14, 4⟩) :
    pt = ⟨0, 0, 0⟩ := by
  obtain ⟨l1, m1, k1, hl1, hm1, hk1, hs1, hx1, hy1, hz1⟩ := hA
  obtain ⟨l2, m2, k2, hl2, hm2, hk2, hs2, hx2, hy2, hz2⟩ := hB
  rcases pt with ⟨px, py, pz⟩
  norm_num at hx1 hy1 hz1 hx2 hy2 hz2
  simp only [P3.mk.injEq]
  refine ⟨?_, ?_, ?_⟩ <;> linarith

/-- Same for the mirrored pair ((0,0,0),(10,10,-4),(10,14,-4)) below the
plane z = 0: the only common point is the shared vertex. -/
theorem shared_down_only_origin (pt : P3)
    (hA : memTri pt ⟨0, 0, 0⟩ ⟨4, 0, 0⟩ ⟨0, 4, 0⟩)
    (hB : memTri pt ⟨0, 0, 0⟩ ⟨10, 10, -4⟩ ⟨10, 14, -4⟩) :
    pt = ⟨0, 0, 0⟩ := by
  obtain ⟨l1, m1, k1, hl1, hm1, hk1, hs1, hx1, hy1, hz1⟩ := hA
  obtain ⟨l2, m2, k2, hl2, hm2, hk2, hs2, hx2, hy2, hz2⟩ := hB
  rcases pt with ⟨px, py, pz⟩
  norm_num at hx1 hy1 hz1 hx2 hy2 hz2
  simp only [P3.mk.injEq]
  refine ⟨?_, ?_, ?_⟩ <;> linarith

/-- Claim C6 counterexample: the triangles ((0,0,0),(4,0,0),(0,4,0)) and
((0,0,0),(10,10,4),(10,14,4)) share exactly the vertex (0,0,0) (all other
vertex pairs differ), are otherwise disjoint as point sets (their only
common point is the shared vertex), and yet `intersect` returns true: the
zero signed volumes at the shared vertex take signum `1.0` or `-1.0` and
here satisfy the strict sign conditions. -/
theorem claim_C6_counterexample :
    ((Triangle.new (vtx 0 0 0) (vtx 4 0 0) (vtx 0 4 0)).v0 =
        (Triangle.new (vtx 0 0 0) (vtx 10 10 4) (vtx 10 14 4)).v0 ∧
      (vtx 0 0 0 : Vertex) ≠ vtx 10 10 4 ∧
      (vtx 0 0 0 : Vertex) ≠ vtx 10 14 4 ∧
      (vtx 4 0 0 : Vertex) ≠ vtx 0 0 0 ∧
      (vtx 4 0 0 : Vertex) ≠ vtx 10 10 4 ∧
      (vtx 4 0 0 : Vertex) ≠ vtx 10 14 4 ∧
      (vtx 0 4 0 : Vertex) ≠ vtx 0 0 0 ∧
      (vtx 0 4 0 : Vertex) ≠ vtx 10 10 4 ∧
      (vtx 0 4 0 : Vertex) ≠ vtx 10 14 4) ∧
      (∀ pt : P3,
        memTri pt (vtx 0 0 0).toP3 (vtx 4 0 0).toP3 (vtx 0 4 0).toP3 →
        memTri pt (vtx 0 0 0).toP3 (vtx 10 10 4).toP3 (vtx 10 14 4).toP3 →
        pt = ⟨0, 0, 0⟩) ∧
      (Triangle.new (vtx 0 0 0) (vtx 4 0 0) (vtx 0 4 0)).intersect
        (Triangle.new (vtx 0 0 0) (vtx 10 10 4) (vtx 10 14 4)) = true := by
  refine ⟨⟨rfl, ?_, ?_, ?_, ?_, ?_, ?_, ?_, ?_⟩, ?_, ?_⟩
  · norm_num [vtx, fpOf, FP.zero_ne_nz, FP.nz_ne_zero]
  · norm_num [vtx, fpOf, FP.zero_ne_nz, FP.nz_ne_zero]
  · norm_num [vtx, fpOf, FP.zero_ne_nz, FP.nz_ne_zero]
  · norm_num [vtx, fpOf, FP.zero_ne_nz, FP.nz_ne_zero]
  · norm_num [vtx, fpOf, FP.zero_ne_nz, FP.nz_ne_zero]
  · norm_num [vtx, fpOf, FP.zero_ne_nz, FP.nz_ne_zero]
  · norm_num [vtx, fpOf, FP.zero_ne_nz, FP.nz_ne_zero]
  · norm_num [vtx, fpOf, FP.zero_ne_nz, FP.nz_ne_zero]
  · intro pt hA hB
    rw [toP3_vtx, toP3_vtx, toP3_vtx] at hA
    rw [toP3_vtx, toP3_vtx, toP3_vtx] at hB
    exact shared_up_only_origin pt hA hB
  · norm_num [Triangle.intersect, Triangle.edge_intersect, Triangle.new,
      Edge.new, tetrahedran_signed_volume, Vertex.subtract,
      Vertex.cross_product, Vertex.dot_product, FP.sub, FP.fne, vtx, fpOf]

/-- Claim C6 as amended: two triangles sharing exactly one vertex and
otherwise disjoint are NOT always classified as non-intersecting: the zero
signed volumes arising at the shared vertex are given signum `1.0` or
`-1.0` according to the IEEE sign of the computed zero, which can satisfy
the strict sign conditions.  Whether such a pair reports true or false
depends on the configuration: with the second triangle above the first's
plane the pair ((0,0,0),(4,0,0),(0,4,0)) vs ((0,0,0),(10,10,4),(10,14,4))
reports true, while the mirrored pair with ((0,0,0),(10,10,-4),(10,14,-4))
reports false; both pairs share exactly the vertex (0,0,0) and are
otherwise disjoint. -/
theorem claim_C6_amended_shared_vertex_unconstrained :
    ((∀ pt : P3,
        memTri pt (vtx 0 0 0).toP3 (vtx 4 0 0).toP3 (vtx 0 4 0).toP3 →
        memTri pt (vtx 0 0 0).toP3 (vtx 10 10 4).toP3 (vtx 10 14 4).toP3 →
        pt = ⟨0, 0, 0⟩) ∧
      (Triangle.new (vtx 0 0 0) (vtx 4 0 0) (vtx 0 4 0)).intersect
        (Triangle.new (vtx 0 0 0) (vtx 10 10 4) (vtx 10 14 4)) = true) ∧
      ((∀ pt : P3,
        memTri pt (vtx 0 0 0).toP3 (vtx 4 0 0).toP3 (vtx 0 4 0).toP3 →
        memTri pt (vtx 0 0 0).toP3 (vtx 10 10 (-4)).toP3
          (vtx 10 14 (-4)).toP3 →
        pt = ⟨0, 0, 0⟩) ∧
      (Triangle.new (vtx 0 0 0) (vtx 4 0 0) (vtx 0 4 0)).intersect
        (Triangle.new (vtx 0 0 0) (vtx 10 10 (-4)) (vtx 10 14 (-4))) =
          false) := by
  refine ⟨⟨?_, ?_⟩, ?_, ?_⟩
  · intro pt hA hB
    rw [toP3_vtx, toP3_vtx, toP3_vtx] at hA
    rw [toP3_vtx, toP3_vtx, toP3_vtx] at hB
    exact shared_up_only_origin pt hA hB
  · norm_num [Triangle.intersect, Triangle.edge_intersect, Triangle.new,
      Edge.new, tetrahedran_signed_volume, Vertex.subtract,
      Vertex.cross_product, Vertex.dot_product, FP.sub, FP.fne, vtx, fpOf]
  · intro pt hA hB
    rw [toP3_vtx, toP3_vtx, toP3_vtx] at hA
    rw [toP3_vtx, toP3_vtx, toP3_vtx] at hB
    exact shared_down_only_origin pt hA hB
  · norm_num [Triangle.intersect, Triangle.edge_intersect, Triangle.new,
      Edge.new, tetrahedran_signed_volume, Vertex.subtract,
      Vertex.cross_product, Vertex.dot_product, FP.sub, FP.fne, vtx, fpOf]

/-- Claim C7 counterexample: swapping the last two vertices of the triangle
((0,0,0),(4,0,0),(0,4,0)) — with the edges re-derived by the constructor —
changes the result of `intersect` against ((1,1,0),(1,1,4),(9,9,1)) from
true to false: the first edge of the second triangle starts exactly in the
first triangle's plane, the computed zero keeps sign `+0.0` under both
vertex orders, and its signum `1.0` compares differently against the two
(opposite) signs of the other plane-side volume. -/
theorem claim_C7_counterexample :
    (Triangle.new (vtx 0 0 0) (vtx 0 4 0) (vtx 4 0 0)).intersect
        (Triangle.new (vtx 1 1 0) (vtx 1 1 4) (vtx 9 9 1)) = false ∧
      (Triangle.new (vtx 0 0 0) (vtx 4 0 0) (vtx 0 4 0)).intersect
        (Triangle.new (vtx 1 1 0) (vtx 1 1 4) (vtx 9 9 1)) = true := by
  refine ⟨?_, ?_⟩ <;>
    norm_num [Triangle.intersect, Triangle.edge_intersect, Triangle.new,
      Edge.new, tetrahedran_signed_volume, Vertex.subtract,
      Vertex.cross_product, Vertex.dot_product, FP.sub, FP.fne, vtx, fpOf]

/-- Claim C7 as amended: for triangles with finite coordinates such that
none of the fifteen signed volumes arising in the six edge tests vanishes,
every permutation of the first triangle's three vertices (with the edges
re-derived by the constructor) yields the same `intersect` result against
the second triangle.  The conjunction covers the five non-identity
permutations of (u,v,w). -/
theorem claim_C7_perm_invariance (u v w p q r : Vertex)
    (hu : u.finite) (hv : v.finite) (hw : w.finite)
    (hp : p.finite) (hq : q.finite) (hr : r.finite)
    (n1 : svQ u v w p ≠ 0) (n2 : svQ u v w q ≠ 0) (n3 : svQ u v w r ≠ 0)
    (n4 : svQ p q r u ≠ 0) (n5 : svQ p q r v ≠ 0) (n6 : svQ p q r w ≠ 0)
    (n7 : svQ u v p q ≠ 0) (n8 : svQ v w p q ≠ 0) (n9 : svQ w u p q ≠ 0)
    (n10 : svQ u v q r ≠ 0) (n11 : svQ v w q r ≠ 0) (n12 : svQ w u q r ≠ 0)
    (n13 : svQ u v r p ≠ 0) (n14 : svQ v w r p ≠ 0)
    (n15 : svQ w u r p ≠ 0) :
    (Triangle.new v u w).intersect (Triangle.new p q r) =
        (Triangle.new u v w).intersect (Triangle.new p q r) ∧
      (Triangle.new u w v).intersect (Triangle.new p q r) =
        (Triangle.new u v w).intersect (Triangle.new p q r) ∧
      (Triangle.new w v u).intersect (Triangle.new p q r) =
        (Triangle.new u v w).intersect (Triangle.new p q r) ∧
      (Triangle.new v w u).intersect (Triangle.new p q r) =
        (Triangle.new u v w).intersect (Triangle.new p q r) ∧
      (Triangle.new w u v).intersect (Triangle.new p q r) =
        (Triangle.new u v w).intersect (Triangle.new p q r) := by
  have base := intersect_iff u v w p q r hu hv hw hp hq hr
    n1 n2 n3 n4 n5 n6 n7 n8 n9 n10 n11 n12 n13 n14 n15
  refine ⟨?_, ?_, ?_, ?_, ?_⟩
  · have h := intersect_iff v u w p q r hv hu hw hp hq hr
      (by rw [svQ_swap12]; exact neg_ne_zero.mpr n1)
      (by rw [svQ_swap12]; exact neg_ne_zero.mpr n2)
      (by rw [svQ_swap12]; exact neg_ne_zero.mpr n3)
      n5 n4 n6
      (by rw [svQ_swap12]; exact neg_ne_zero.mpr n7)
      (by rw [svQ_swap12]; exact neg_ne_zero.mpr n9)
      (by rw [svQ_swap12]; exact neg_ne_zero.mpr n8)
      (by rw [svQ_swap12]; exact neg_ne_zero.mpr n10)
      (by rw [svQ_swap12]; exact neg_ne_zero.mpr n12)
      (by rw [svQ_swap12]; exact neg_ne_zero.mpr n11)
      (by rw [svQ_swap12]; exact neg_ne_zero.mpr n13)
      (by rw [svQ_swap12]; exact neg_ne_zero.mpr n15)
      (by rw [svQ_swap12]; exact neg_ne_zero.mpr n14)
    exact bool_eq_of_iff (h.trans ((IQ_swap12 u v w p q r).trans base.symm))
  · have h := intersect_iff u w v p q r hu hw hv hp hq hr
      (by rw [svQ_swap23]; exact neg_ne_zero.mpr n1)
      (by rw [svQ_swap23]; exact neg_ne_zero.mpr n2)
      (by rw [svQ_swap23]; exact neg_ne_zero.mpr n3)
      n4 n6 n5
      (by rw [svQ_swap12]; exact neg_ne_zero.mpr n9)
      (by rw [svQ_swap12]; exact neg_ne_zero.mpr n8)
      (by rw [svQ_swap12]; exact neg_ne_zero.mpr n7)
      (by rw [svQ_swap12]; exact neg_ne_zero.mpr n12)
      (by rw [svQ_swap12]; exact neg_ne_zero.mpr n11)
      (by rw [svQ_swap12]; exact neg_ne_zero.mpr n10)
      (by rw [svQ_swap12]; exact neg_ne_zero.mpr n15)
      (by rw [svQ_swap12]; exact neg_ne_zero.mpr n14)
      (by rw [svQ_swap12]; exact neg_ne_zero.mpr n13)
    exact bool_eq_of_iff (h.trans ((IQ_swap23 u v w p q r).trans base.symm))
  · have h := intersect_iff w v u p q r hw hv hu hp hq hr
      (by rw [svQ_swap13]; exact neg_ne_zero.mpr n1)
      (by rw [svQ_swap13]; exact neg_ne_zero.mpr n2)
      (by rw [svQ_swap13]; exact neg_ne_zero.mpr n3)
      n6 n5 n4
      (by rw [svQ_swap12]; exact neg_ne_zero.mpr n8)
      (by rw [svQ_swap12]; exact neg_ne_zero.mpr n7)
      (by rw [svQ_swap12]; exact neg_ne_zero.mpr n9)
      (by rw [svQ_swap12]; exact neg_ne_zero.mpr n11)
      (by rw [svQ_swap12]; exact neg_ne_zero.mpr n10)
      (by rw [svQ_swap12]; exact neg_ne_zero.mpr n12)
      (by rw [svQ_swap12]; exact neg_ne_zero.mpr n14)
      (by rw [svQ_swap12]; exact neg_ne_zero.mpr n13)
      (by rw [svQ_swap12]; exact neg_ne_zero.mpr n15)
    exact bool_eq_of_iff (h.trans ((IQ_swap13 u v w p q r).trans base.symm))
  · have h := intersect_iff v w u p q r hv hw hu hp hq hr
      (by rw [svQ_rot]; exact n1)
      (by rw [svQ_rot]; exact n2)
      (by rw [svQ_rot]; exact n3)
      n5 n6 n4 n8 n9 n7 n11 n12 n10 n14 n15 n13
    exact bool_eq_of_iff (h.trans ((IQ_rot u v w p q r).trans base.symm))
  · have h := intersect_iff w u v p q r hw hu hv hp hq hr
      (by rw [svQ_rot2]; exact n1)
      (by rw [svQ_rot2]; exact n2)
      (by rw [svQ_rot2]; exact n3)
      n6 n4 n5 n9 n7 n8 n12 n10 n11 n15 n13 n14
    exact bool_eq_of_iff (h.trans ((IQ_rot2 u v w p q r).trans base.symm))

/-- Witness for the amended claim C7: the generic pair
T1 = ((0,0,0),(3,0,0),(0,3,1)), T2 = ((1,-1,-2),(1,-1,2),(1,2,1)) has all
fifteen signed volumes nonzero, and all five permuted copies of T1 give
the same `intersect` result against T2. -/
theorem claim_C7_witness :
    (Triangle.new (vtx 3 0 0) (vtx 0 0 0) (vtx 0 3 1)).intersect
        (Triangle.new (vtx 1 (-1) (-2)) (vtx 1 (-1) 2) (vtx 1 2 1)) =
      (Triangle.new (vtx 0 0 0) (vtx 3 0 0) (vtx 0 3 1)).intersect
        (Triangle.new (vtx 1 (-1) (-2)) (vtx 1 (-1) 2) (vtx 1 2 1)) ∧
      (Triangle.new (vtx 0 0 0) (vtx 0 3 1) (vtx 3 0 0)).intersect
        (Triangle.new (vtx 1 (-1) (-2)) (vtx 1 (-1) 2) (vtx 1 2 1)) =
      (Triangle.new (vtx 0 0 0) (vtx 3 0 0) (vtx 0 3 1)).intersect
        (Triangle.new (vtx 1 (-1) (-2)) (vtx 1 (-1) 2) (vtx 1 2 1)) ∧
      (Triangle.new (vtx 0 3 1) (vtx 3 0 0) (vtx 0 0 0)).intersect
        (Triangle.new (vtx 1 (-1) (-2)) (vtx 1 (-1) 2) (vtx 1 2 1)) =
      (Triangle.new (vtx 0 0 0) (vtx 3 0 0) (vtx 0 3 1)).intersect
        (Triangle.new (vtx 1 (-1) (-2)) (vtx 1 (-1) 2) (vtx 1 2 1)) ∧
      (Triangle.new (vtx 3 0 0) (vtx 0 3 1) (vtx 0 0 0)).intersect
        (Triangle.new (vtx 1 (-1) (-2)) (vtx 1 (-1) 2) (vtx 1 2 1)) =
      (Triangle.new (vtx 0 0 0) (vtx 3 0 0) (vtx 0 3 1)).intersect
        (Triangle.new (vtx 1 (-1) (-2)) (vtx 1 (-1) 2) (vtx 1 2 1)) ∧
      (Triangle.new (vtx 0 3 1) (vtx 0 0 0) (vtx 3 0 0)).intersect
        (Triangle.new (vtx 1 (-1) (-2)) (vtx 1 (-1) 2) (vtx 1 2 1)) =
      (Triangle.new (vtx 0 0 0) (vtx 3 0 0) (vtx 0 3 1)).intersect
        (Triangle.new (vtx 1 (-1) (-2)) (vtx 1 (-1) 2) (vtx 1 2 1)) :=
  claim_C7_perm_invariance (vtx 0 0 0) (vtx 3 0 0) (vtx 0 3 1)
    (vtx 1 (-1) (-2)) (vtx 1 (-1) 2) (vtx 1 2 1)
    (by norm_num [Vertex.finite, vtx, fpOf])
    (by norm_num [Vertex.finite, vtx, fpOf])
    (by norm_num [Vertex.finite, vtx, fpOf])
    (by norm_num [Vertex.finite, vtx, fpOf])
    (by norm_num [Vertex.finite, vtx, fpOf])
    (by norm_num [Vertex.finite, vtx, fpOf])
    (by norm_num [svQ, vtx, fpOf]) (by norm_num [svQ, vtx, fpOf])
    (by norm_num [svQ, vtx, fpOf]) (by norm_num [svQ, vtx, fpOf])
    (by norm_num [svQ, vtx, fpOf]) (by norm_num [svQ, vtx, fpOf])
    (by norm_num [svQ, vtx, fpOf]) (by norm_num [svQ, vtx, fpOf])
    (by norm_num [svQ, vtx, fpOf]) (by norm_num [svQ, vtx, fpOf])
    (by norm_num [svQ, vtx, fpOf]) (by norm_num [svQ, vtx, fpOf])
    (by norm_num [svQ, vtx, fpOf]) (by norm_num [svQ, vtx, fpOf])
    (by norm_num [svQ, vtx, fpOf])

/-- Claim C10: if any of the three edge-edge signed volumes computed inside
`edge_intersect` is NaN, the result is false: `signum(NaN) = NaN` and every
`f64` `==` comparison involving NaN is false, and each `sv_t[i]` occurs in
one of the three conjoined equality comparisons. -/
theorem claim_C10_nan_edge_volume_rejects (T : Triangle) (E : Edge)
    (h : tetrahedran_signed_volume T.e0.p0 T.e0.p1 E.p0 E.p1 = FP.nan ∨
      tetrahedran_signed_volume T.e1.p0 T.e1.p1 E.p0 E.p1 = FP.nan ∨
      tetrahedran_signed_volume T.e2.p0 T.e2.p1 E.p0 E.p1 = FP.nan) :
    T.edge_intersect E = false := by
  simp only [Triangle.edge_intersect]
  rcases h with h | h | h <;> rw [h] <;>
    simp [FP.signum, FP.feq_nan_left, FP.feq_nan_right]

/-- Witness for claim C10: a triangle and an edge whose second endpoint has
a NaN x-coordinate; the first edge-edge volume is NaN and the test
returns false. -/
theorem claim_C10_witness :
    (Triangle.new (vtx 0 0 0) (vtx 1 0 0) (vtx 0 1 0)).edge_intersect
      (Edge.new (vtx 0 0 1) ⟨FP.nan, fpOf 0, fpOf 0⟩) = false :=
  claim_C10_nan_edge_volume_rejects _ _ (Or.inl (by
    norm_num [Triangle.new, Edge.new, tetrahedran_signed_volume,
      Vertex.subtract, Vertex.cross_product, Vertex.dot_product, FP.sub,
      FP.neg, vtx, fpOf]))

end TriangleIntersect
